import Mathlib

/-!
Verification of the network-utility server (`server.js`).

The JavaScript source is shallowly embedded: strings are `List Char`,
JavaScript numbers are modelled exactly (`JSNum`: a rational, `NaN`,
or an infinity), fallible operations return `Option`, and the
event-driven command runner is a step function over explicit traces.
-/

namespace NetUtil

/-! ## Character classes

JavaScript's `String.prototype.trim` and the regex class `\s` both use
the WhiteSpace ∪ LineTerminator set of ECMA-262.  Characters are
compared through their code points (`Char.toNat`). -/

def isJsWs (c : Char) : Bool :=
  let n := c.toNat
  n = 32 || n = 9 || n = 10 || n = 13 || n = 11 || n = 12 ||
  n = 0xa0 || n = 0x1680 || (0x2000 ≤ n && n ≤ 0x200a) ||
  n = 0x2028 || n = 0x2029 || n = 0x202f || n = 0x205f ||
  n = 0x3000 || n = 0xfeff

/-- The allow-list of `validateHost`: the regex class `[A-Za-z0-9.\-:]`. -/
def isAllowedHostChar (c : Char) : Bool :=
  let n := c.toNat
  (65 ≤ n && n ≤ 90) || (97 ≤ n && n ≤ 122) || (48 ≤ n && n ≤ 57) ||
  n = 46 || n = 45 || n = 58

/-- `String.prototype.trim`: drop WhiteSpace/LineTerminator characters
from both ends. -/
def jsTrim (l : List Char) : List Char :=
  ((l.dropWhile isJsWs).reverse.dropWhile isJsWs).reverse

/-- A JavaScript value arriving as `req.query.host`: either a string or
something that is not a string (array, object, undefined, ...). -/
inductive JSVal where
  | str (s : List Char)
  | nonString
deriving DecidableEq, Repr

/-- The anchored test `/^[A-Za-z0-9.\-:]+$/.test(host)`: succeeds iff the
string is non-empty and every character is in the class. -/
def hostRegexTest (l : List Char) : Bool :=
  !l.isEmpty && l.all isAllowedHostChar

/-- `validateHost` from `server.js`:
non-string input is rejected; the input is trimmed; the empty result and
results longer than 255 are rejected; then the anchored allow-list regex
must match; on success the trimmed string is returned. -/
def validateHost : JSVal → Option (List Char)
  | .nonString => none
  | .str input =>
    let host := jsTrim input
    if host.isEmpty then none
    else if 255 < host.length then none
    else if hostRegexTest host then some host
    else none

/-! ### Validator lemmas -/

theorem dropWhile_eq_self_of_false {p : Char → Bool} :
    ∀ {l : List Char}, (∀ c ∈ l, p c = false) → l.dropWhile p = l := by
  intro l h
  cases l with
  | nil => rfl
  | cons a as =>
    simp only [List.dropWhile]
    rw [h a (List.mem_cons_self a as)]

theorem jsTrim_eq_self_of_no_ws {l : List Char}
    (h : ∀ c ∈ l, isJsWs c = false) : jsTrim l = l := by
  unfold jsTrim
  rw [dropWhile_eq_self_of_false h]
  rw [dropWhile_eq_self_of_false (by intro c hc; exact h c (List.mem_reverse.mp hc))]
  exact List.reverse_reverse l

theorem allowed_not_ws {c : Char} (h : isAllowedHostChar c = true) :
    isJsWs c = false := by
  simp only [isAllowedHostChar, Bool.or_eq_true, Bool.and_eq_true,
    decide_eq_true_eq] at h
  simp only [isJsWs, Bool.or_eq_false_iff, Bool.and_eq_false_iff,
    decide_eq_false_iff_not]
  omega

/-- Characterisation of acceptance: `validateHost` on a string input
returns `some r` exactly when `r` is the trimmed input, non-empty, of
length at most 255, and drawn entirely from the allow-list. -/
theorem validateHost_str_eq_some (s r : List Char) :
    validateHost (.str s) = some r ↔
      r = jsTrim s ∧ r ≠ [] ∧ r.length ≤ 255 ∧ r.all isAllowedHostChar = true := by
  constructor
  · intro h
    simp only [validateHost] at h
    by_cases he : (jsTrim s).isEmpty
    · rw [if_pos he] at h; exact absurd h (by simp)
    · rw [if_neg he] at h
      by_cases hl : 255 < (jsTrim s).length
      · rw [if_pos hl] at h; exact absurd h (by simp)
      · rw [if_neg hl] at h
        by_cases ha : hostRegexTest (jsTrim s)
        · rw [if_pos ha] at h
          have hr := Option.some.inj h
          refine ⟨hr.symm, ?_, ?_, ?_⟩
          · rw [← hr]
            intro hemp
            exact he (by simp [hemp])
          · rw [← hr]; omega
          · rw [← hr]
            exact (Bool.and_eq_true _ _ |>.mp ha).2
        · rw [if_neg ha] at h; exact absurd h (by simp)
  · rintro ⟨rfl, hne, hlen, hall⟩
    simp only [validateHost]
    rw [if_neg, if_neg, if_pos]
    · simp [hostRegexTest, hall, List.isEmpty_iff, hne]
    · omega
    · simp [List.isEmpty_iff, hne]

/-! ## Command Runner (`runCommand`)

`runCommand` spawns a child process and installs four callbacks: stdout
data, stderr data, an `error` handler, a `close` handler, plus a
`setTimeout` timer.  Its behaviour is modelled as a state machine
consuming the sequence of callback invocations the Node runtime
delivers.  The `timerFire` event carries the runtime guarantee that a
timer cleared by `clearTimeout` (or already fired) never fires: the
step is a no-op when the timer is not armed.  Every call to `resolve`
is recorded by appending to `resolved`. -/

structure CommandResult where
  code : Option Int
  stdout : List Char
  stderr : List Char
  timedOut : Bool
deriving DecidableEq, Repr

inductive REvent where
  | dataOut (d : List Char)
  | dataErr (d : List Char)
  | timerFire
  | errorEv (msg : List Char)
  | closeEv (code : Option Int)
deriving DecidableEq, Repr

structure RunState where
  finished : Bool
  timerArmed : Bool
  stdout : List Char
  stderr : List Char
  resolved : List CommandResult
deriving DecidableEq, Repr

/-- The `'\n[Timed out]'` marker appended to stderr on timeout. -/
def timeoutMarker : List Char := "\n[Timed out]".toList

def runCommandInit : RunState :=
  ⟨false, true, [], [], []⟩

/-- One callback invocation, mirroring the handlers in `runCommand`:
data events accumulate; the timer callback, the `error` handler and the
`close` handler are each guarded by the `finished` flag, and the two
process handlers call `clearTimeout` before resolving. -/
def runCommandStep (s : RunState) : REvent → RunState
  | .dataOut d => { s with stdout := s.stdout ++ d }
  | .dataErr d => { s with stderr := s.stderr ++ d }
  | .timerFire =>
    if s.timerArmed then
      if s.finished then { s with timerArmed := false }
      else
        ⟨true, false, s.stdout, s.stderr,
          s.resolved ++ [⟨none, s.stdout, s.stderr ++ timeoutMarker, true⟩]⟩
    else s
  | .errorEv msg =>
    if s.finished then s
    else
      ⟨true, false, s.stdout, s.stderr,
        s.resolved ++ [⟨none, s.stdout, msg, false⟩]⟩
  | .closeEv c =>
    if s.finished then s
    else
      ⟨true, false, s.stdout, s.stderr,
        s.resolved ++ [⟨c, s.stdout, s.stderr, false⟩]⟩

def runCommandTrace (events : List REvent) : RunState :=
  events.foldl runCommandStep runCommandInit

/-- Terminal events: the three ways an invocation can resolve. -/
def isTerminal : REvent → Bool
  | .timerFire => true
  | .errorEv _ => true
  | .closeEv _ => true
  | .dataOut _ => false
  | .dataErr _ => false

/-- stdout accumulated over a trace. -/
def accOut : List REvent → List Char
  | [] => []
  | .dataOut d :: es => d ++ accOut es
  | _ :: es => accOut es

/-- stderr accumulated over a trace. -/
def accErr : List REvent → List Char
  | [] => []
  | .dataErr d :: es => d ++ accErr es
  | _ :: es => accErr es

/-- The single result produced when terminal event `t` arrives first,
with stdout `o` and stderr `er` accumulated so far.  (The data-event
rows are unused filler: the function is only applied to terminal
events.) -/
def resolutionOf : REvent → List Char → List Char → CommandResult
  | .timerFire, o, er => ⟨none, o, er ++ timeoutMarker, true⟩
  | .errorEv msg, o, _ => ⟨none, o, msg, false⟩
  | .closeEv c, o, er => ⟨c, o, er, false⟩
  | .dataOut _, o, er => ⟨none, o, er, false⟩
  | .dataErr _, o, er => ⟨none, o, er, false⟩

/-! ### Runner lemmas -/

/-- The one-shot invariant: before resolution the timer is armed and
nothing is resolved; after resolution the timer is disarmed and exactly
one result has been produced. -/
def RunInv (s : RunState) : Prop :=
  (s.finished = false ∧ s.timerArmed = true ∧ s.resolved = []) ∨
  (s.finished = true ∧ s.timerArmed = false ∧ s.resolved.length = 1)

theorem runInv_init : RunInv runCommandInit :=
  Or.inl ⟨rfl, rfl, rfl⟩

theorem runInv_step {s : RunState} (e : REvent) (h : RunInv s) :
    RunInv (runCommandStep s e) := by
  rcases h with ⟨hf, ht, hr⟩ | ⟨hf, ht, hr⟩
  · cases e with
    | dataOut d => exact Or.inl ⟨hf, ht, hr⟩
    | dataErr d => exact Or.inl ⟨hf, ht, hr⟩
    | timerFire =>
      refine Or.inr ?_
      simp [runCommandStep, ht, hf, hr]
    | errorEv msg =>
      refine Or.inr ?_
      simp [runCommandStep, hf, hr]
    | closeEv c =>
      refine Or.inr ?_
      simp [runCommandStep, hf, hr]
  · cases e with
    | dataOut d => exact Or.inr ⟨hf, ht, hr⟩
    | dataErr d => exact Or.inr ⟨hf, ht, hr⟩
    | timerFire =>
      refine Or.inr ?_
      simp [runCommandStep, ht, hf, hr]
    | errorEv msg =>
      refine Or.inr ?_
      simp [runCommandStep, hf, ht, hr]
    | closeEv c =>
      refine Or.inr ?_
      simp [runCommandStep, hf, ht, hr]

theorem runInv_foldl (events : List REvent) {s : RunState} (h : RunInv s) :
    RunInv (events.foldl runCommandStep s) := by
  induction events generalizing s with
  | nil => exact h
  | cons e es ih => exact ih (runInv_step e h)

/-- Once resolved, later events change neither `resolved` nor
`finished`. -/
theorem step_stable {s : RunState} (e : REvent) (h : s.finished = true) :
    (runCommandStep s e).resolved = s.resolved ∧
      (runCommandStep s e).finished = true := by
  cases e with
  | dataOut d => exact ⟨rfl, h⟩
  | dataErr d => exact ⟨rfl, h⟩
  | timerFire =>
    by_cases ha : s.timerArmed
    · simp [runCommandStep, h, ha]
    · simp [runCommandStep, h, ha]
  | errorEv msg => simp [runCommandStep, h]
  | closeEv c => simp [runCommandStep, h]

theorem foldl_stable (post : List REvent) {s : RunState}
    (h : s.finished = true) :
    (post.foldl runCommandStep s).resolved = s.resolved ∧
      (post.foldl runCommandStep s).finished = true := by
  induction post generalizing s with
  | nil => exact ⟨rfl, h⟩
  | cons e es ih =>
    obtain ⟨h1, h2⟩ := step_stable (s := s) e h
    obtain ⟨h3, h4⟩ := ih h2
    exact ⟨h3.trans h1, h4⟩

/-- Folding non-terminal events from an unresolved state only
accumulates the two buffers. -/
theorem foldl_nonterminal (pre : List REvent) :
    ∀ o er : List Char, (∀ e ∈ pre, isTerminal e = false) →
      pre.foldl runCommandStep ⟨false, true, o, er, []⟩ =
        ⟨false, true, o ++ accOut pre, er ++ accErr pre, []⟩ := by
  induction pre with
  | nil => intro o er _; simp [accOut, accErr]
  | cons e es ih =>
    intro o er h
    have hes : ∀ e ∈ es, isTerminal e = false :=
      fun x hx => h x (List.mem_cons_of_mem _ hx)
    cases e with
    | dataOut d =>
      simp only [List.foldl_cons, runCommandStep]
      rw [ih (o ++ d) er hes]
      simp [accOut, accErr]
    | dataErr d =>
      simp only [List.foldl_cons, runCommandStep]
      rw [ih o (er ++ d) hes]
      simp [accOut, accErr]
    | timerFire => exact absurd (h _ (List.mem_cons_self _ _)) (by simp [isTerminal])
    | errorEv msg => exact absurd (h _ (List.mem_cons_self _ _)) (by simp [isTerminal])
    | closeEv c => exact absurd (h _ (List.mem_cons_self _ _)) (by simp [isTerminal])

/-- A cleared timer stays cleared. -/
theorem foldl_timerArmed_stable (q : List REvent) :
    ∀ s : RunState, s.timerArmed = false →
      (q.foldl runCommandStep s).timerArmed = false := by
  induction q with
  | nil => intro s hs; exact hs
  | cons e es ihq =>
    intro s hs
    refine ihq _ ?_
    cases e with
    | dataOut d => exact hs
    | dataErr d => exact hs
    | timerFire => simp [runCommandStep, hs]
    | errorEv msg =>
      simp only [runCommandStep]
      split
      · exact hs
      · rfl
    | closeEv c =>
      simp only [runCommandStep]
      split
      · exact hs
      · rfl

/-- Decomposition: when the first terminal event `t` arrives after the
non-terminal prefix `pre`, the whole trace resolves exactly to the
result determined by `t`, with the buffers accumulated over `pre`; the
timer is disarmed and everything after `t` is ignored. -/
theorem runCommandTrace_decomp (pre : List REvent) (t : REvent)
    (post : List REvent) (hpre : ∀ e ∈ pre, isTerminal e = false)
    (ht : isTerminal t = true) :
    (runCommandTrace (pre ++ t :: post)).resolved =
        [resolutionOf t (accOut pre) (accErr pre)] ∧
      (runCommandTrace (pre ++ t :: post)).finished = true ∧
      (runCommandTrace (pre ++ t :: post)).timerArmed = false := by
  unfold runCommandTrace
  rw [List.foldl_append]
  have hinit : List.foldl runCommandStep runCommandInit pre =
      ⟨false, true, accOut pre, accErr pre, []⟩ := by
    have := foldl_nonterminal pre [] [] hpre
    simpa [runCommandInit] using this
  rw [hinit]
  cases t with
  | dataOut d => simp [isTerminal] at ht
  | dataErr d => simp [isTerminal] at ht
  | timerFire =>
    rw [List.foldl_cons]
    have hstep : runCommandStep ⟨false, true, accOut pre, accErr pre, []⟩
        .timerFire = ⟨true, false, accOut pre, accErr pre,
          [⟨none, accOut pre, accErr pre ++ timeoutMarker, true⟩]⟩ := rfl
    rw [hstep]
    obtain ⟨h1, h2⟩ := foldl_stable post
      (s := ⟨true, false, accOut pre, accErr pre,
        [⟨none, accOut pre, accErr pre ++ timeoutMarker, true⟩]⟩) rfl
    exact ⟨h1, h2, foldl_timerArmed_stable post _ rfl⟩
  | errorEv msg =>
    rw [List.foldl_cons]
    have hstep : runCommandStep ⟨false, true, accOut pre, accErr pre, []⟩
        (.errorEv msg) = ⟨true, false, accOut pre, accErr pre,
          [⟨none, accOut pre, msg, false⟩]⟩ := rfl
    rw [hstep]
    obtain ⟨h1, h2⟩ := foldl_stable post
      (s := ⟨true, false, accOut pre, accErr pre,
        [⟨none, accOut pre, msg, false⟩]⟩) rfl
    exact ⟨h1, h2, foldl_timerArmed_stable post _ rfl⟩
  | closeEv c =>
    rw [List.foldl_cons]
    have hstep : runCommandStep ⟨false, true, accOut pre, accErr pre, []⟩
        (.closeEv c) = ⟨true, false, accOut pre, accErr pre,
          [⟨c, accOut pre, accErr pre, false⟩]⟩ := rfl
    rw [hstep]
    obtain ⟨h1, h2⟩ := foldl_stable post
      (s := ⟨true, false, accOut pre, accErr pre,
        [⟨c, accOut pre, accErr pre, false⟩]⟩) rfl
    exact ⟨h1, h2, foldl_timerArmed_stable post _ rfl⟩

/-! ## JavaScript numbers

JavaScript numbers are modelled exactly: a rational value, `NaN`, or an
infinity.  (IEEE-754 rounding and overflow of astronomically large
literals are not modelled; every numeric value occurring in the claims
is exactly representable.) -/

inductive JSNum where
  | num (q : ℚ)
  | nan
  | inf
  | ninf
deriving DecidableEq, Repr

/-- JavaScript division, including the `x/0` and `0/0` rules. -/
def jsDiv : JSNum → JSNum → JSNum
  | .nan, _ => .nan
  | _, .nan => .nan
  | .num x, .num y =>
    if y = 0 then (if x = 0 then .nan else if 0 < x then .inf else .ninf)
    else .num (x / y)
  | .num _, .inf => .num 0
  | .num _, .ninf => .num 0
  | .inf, .num y => if y < 0 then .ninf else .inf
  | .ninf, .num y => if y < 0 then .inf else .ninf
  | .inf, .inf => .nan
  | .inf, .ninf => .nan
  | .ninf, .inf => .nan
  | .ninf, .ninf => .nan

/-- JavaScript multiplication. -/
def jsMul : JSNum → JSNum → JSNum
  | .nan, _ => .nan
  | _, .nan => .nan
  | .num x, .num y => .num (x * y)
  | .num x, .inf => if x = 0 then .nan else if 0 < x then .inf else .ninf
  | .inf, .num y => if y = 0 then .nan else if 0 < y then .inf else .ninf
  | .num x, .ninf => if x = 0 then .nan else if 0 < x then .ninf else .inf
  | .ninf, .num y => if y = 0 then .nan else if 0 < y then .ninf else .inf
  | .inf, .inf => .inf
  | .ninf, .ninf => .inf
  | .inf, .ninf => .ninf
  | .ninf, .inf => .ninf

/-- `Math.round`: `⌊x + 1/2⌋`, passing `NaN` and infinities through. -/
def jsRound : JSNum → JSNum
  | .num q => .num ((⌊q + 1/2⌋ : ℤ) : ℚ)
  | x => x

/-! ## Regex primitives

`parsePingResult` uses a fixed set of regexes.  Each one is embedded as
a dedicated matcher.  In every pattern, each greedy piece (`\d+`,
`\s+`, `\s*`, `[\d.]+`) is followed by a literal or class disjoint
from it, so the backtracking semantics of the JS engine coincide with
the pure greedy scan implemented here; lazy `.*?` is a shortest-first
scan over characters that `.` can match (anything but a
LineTerminator); an unanchored match tries positions left to right. -/

def isAsciiDigit (c : Char) : Bool := 48 ≤ c.toNat && c.toNat ≤ 57

/-- `Number()` of a digit string (also the value of a `\d+` capture). -/
def digitsToNat (l : List Char) : Nat :=
  l.foldl (fun a c => a * 10 + (c.toNat - 48)) 0

/-- Case-insensitive (`/i`) equality of a pattern character `p` (always
ASCII in the patterns below) against a text character: ASCII letters
match both cases; everything else matches exactly.  (Non-ASCII text
characters never canonicalise to ASCII in a non-Unicode JS regex.) -/
def ciEq (p c : Char) : Bool :=
  p = c || (97 ≤ p.toNat && p.toNat ≤ 122 && c.toNat + 32 = p.toNat) ||
  (65 ≤ p.toNat && p.toNat ≤ 90 && c.toNat = p.toNat + 32)

/-- Match a literal (case-insensitively) at the head; returns the rest. -/
def matchLitCI : List Char → List Char → Option (List Char)
  | [], l => some l
  | _ :: _, [] => none
  | p :: ps, c :: cs => if ciEq p c then matchLitCI ps cs else none

/-- `/lit/i.test(l)`: the literal occurs somewhere in `l`. -/
def containsCI (pat : List Char) : List Char → Bool
  | [] => (matchLitCI pat []).isSome
  | l@(_ :: cs) => (matchLitCI pat l).isSome || containsCI pat cs

/-- Greedy `\d+` at the head: the digit run (non-empty) and the rest. -/
def takeDigits (l : List Char) : Option (List Char × List Char) :=
  let ds := l.takeWhile isAsciiDigit
  if ds.isEmpty then none else some (ds, l.dropWhile isAsciiDigit)

/-- Greedy `\s+` at the head. -/
def takeWs1 (l : List Char) : Option (List Char) :=
  if (l.takeWhile isJsWs).isEmpty then none else some (l.dropWhile isJsWs)

/-- Greedy `\s*` at the head. -/
def dropWs (l : List Char) : List Char := l.dropWhile isJsWs

/-- LineTerminator: the characters `.` does not match. -/
def isLineTermChar (c : Char) : Bool :=
  c.toNat = 10 || c.toNat = 13 || c.toNat = 0x2028 || c.toNat = 0x2029

def isDigitDot (c : Char) : Bool := isAsciiDigit c || c = '.'

/-- Greedy `[\d.]+` at the head. -/
def takeDigitDots (l : List Char) : Option (List Char × List Char) :=
  let ds := l.takeWhile isDigitDot
  if ds.isEmpty then none else some (ds, l.dropWhile isDigitDot)

/-- `Number()` of a non-empty digits-and-dots capture: one dot at most,
and at least one digit, else `NaN`. -/
def jsNumOfDigitDots (s : List Char) : JSNum :=
  let intPart := s.takeWhile isAsciiDigit
  let rest := s.dropWhile isAsciiDigit
  match rest with
  | [] => .num (digitsToNat intPart)
  | '.' :: frac =>
    if frac.all isAsciiDigit then
      if intPart.isEmpty && frac.isEmpty then .nan
      else .num (digitsToNat intPart + digitsToNat frac / (10 : ℚ) ^ frac.length)
    else .nan
  | _ => .nan

/-- `output.split(/\r?\n/)`: `\r\n` is consumed as one separator
(greedy `\r?`), a bare `\n` also separates, a bare `\r` does not. -/
def splitLinesAux : List Char → List Char → List (List Char)
  | acc, [] => [acc.reverse]
  | acc, '\r' :: '\n' :: rest => acc.reverse :: splitLinesAux [] rest
  | acc, '\n' :: rest => acc.reverse :: splitLinesAux [] rest
  | acc, c :: rest => splitLinesAux (c :: acc) rest

def splitLines (l : List Char) : List (List Char) := splitLinesAux [] l

/-! ## The ping regexes -/

/-- Tail `(\d+)%\s+packet loss` of the Unix summary regex. -/
def lossTailMatch (l : List Char) : Option Nat := do
  let (d3, r1) ← takeDigits l
  let r2 ← match r1 with | '%' :: rest => some rest | _ => none
  let r3 ← takeWs1 r2
  let _ ← matchLitCI "packet loss".toList r3
  some (digitsToNat d3)

/-- Lazy `.*?` before the loss tail: shortest-first scan, stopping at a
LineTerminator (which `.` cannot match). -/
def scanLossTail : List Char → Option Nat
  | [] => none
  | l@(c :: cs) =>
    match lossTailMatch l with
    | some v => some v
    | none => if isLineTermChar c then none else scanLossTail cs

/-- `/(\d+)\s+packets transmitted,\s+(\d+)\s+received.*?(\d+)%\s+packet loss/i`
at one position. -/
def matchUnixStatsAt (l : List Char) : Option (Nat × Nat × Nat) := do
  let (d1, r1) ← takeDigits l
  let r2 ← takeWs1 r1
  let r3 ← matchLitCI "packets transmitted,".toList r2
  let r4 ← takeWs1 r3
  let (d2, r5) ← takeDigits r4
  let r6 ← takeWs1 r5
  let r7 ← matchLitCI "received".toList r6
  let d3 ← scanLossTail r7
  some (digitsToNat d1, digitsToNat d2, d3)

/-- The same regex, unanchored (leftmost position wins). -/
def findUnixStats : List Char → Option (Nat × Nat × Nat)
  | [] => matchUnixStatsAt []
  | l@(_ :: cs) =>
    match matchUnixStatsAt l with
    | some v => some v
    | none => findUnixStats cs

/-- Lazy `.*?` scan to a literal (for `test`-style boolean regexes). -/
def lazyScanLitCI (pat : List Char) : List Char → Bool
  | [] => (matchLitCI pat []).isSome
  | l@(c :: cs) => (matchLitCI pat l).isSome ||
      (!isLineTermChar c && lazyScanLitCI pat cs)

/-- `/(rtt|round-trip).*?min\/avg\/max/i` at one position.  The two
alternatives diverge after their first character, so no backtracking
between them is possible once one matches. -/
def rttTestAt (l : List Char) : Bool :=
  match matchLitCI "rtt".toList l with
  | some r => lazyScanLitCI "min/avg/max".toList r
  | none =>
    match matchLitCI "round-trip".toList l with
    | some r => lazyScanLitCI "min/avg/max".toList r
    | none => false

/-- `/(rtt|round-trip).*?min\/avg\/max/i.test(l)`. -/
def rttTest : List Char → Bool
  | [] => rttTestAt []
  | l@(_ :: cs) => rttTestAt l || rttTest cs

/-- `/=\s*([\d.]+)\/([\d.]+)\/([\d.]+)/` at one position. -/
def matchRttTripleAt (l : List Char) : Option (JSNum × JSNum × JSNum) := do
  let r1 ← match l with | '=' :: rest => some rest | _ => none
  let r2 := dropWs r1
  let (s1, r3) ← takeDigitDots r2
  let r4 ← match r3 with | '/' :: rest => some rest | _ => none
  let (s2, r5) ← takeDigitDots r4
  let r6 ← match r5 with | '/' :: rest => some rest | _ => none
  let (s3, _) ← takeDigitDots r6
  some (jsNumOfDigitDots s1, jsNumOfDigitDots s2, jsNumOfDigitDots s3)

def findRttTriple : List Char → Option (JSNum × JSNum × JSNum)
  | [] => matchRttTripleAt []
  | l@(_ :: cs) =>
    match matchRttTripleAt l with
    | some v => some v
    | none => findRttTriple cs

/-- `/key\s*=\s*(\d+)/i` at one position. -/
def matchKeyEqNumAt (key : List Char) (l : List Char) : Option Nat := do
  let r1 ← matchLitCI key l
  let r2 := dropWs r1
  let r3 ← match r2 with | '=' :: rest => some rest | _ => none
  let r4 := dropWs r3
  let (d, _) ← takeDigits r4
  some (digitsToNat d)

def findKeyEqNum (key : List Char) : List Char → Option Nat
  | [] => matchKeyEqNumAt key []
  | l@(_ :: cs) =>
    match matchKeyEqNumAt key l with
    | some v => some v
    | none => findKeyEqNum key cs

/-- `/key\s*=\s*(\d+)\s*ms/i` at one position. -/
def matchKeyEqNumMsAt (key : List Char) (l : List Char) : Option Nat := do
  let r1 ← matchLitCI key l
  let r2 := dropWs r1
  let r3 ← match r2 with | '=' :: rest => some rest | _ => none
  let r4 := dropWs r3
  let (d, r5) ← takeDigits r4
  let r6 := dropWs r5
  let _ ← matchLitCI "ms".toList r6
  some (digitsToNat d)

def findKeyEqNumMs (key : List Char) : List Char → Option Nat
  | [] => matchKeyEqNumMsAt key []
  | l@(_ :: cs) =>
    match matchKeyEqNumMsAt key l with
    | some v => some v
    | none => findKeyEqNumMs key cs

/-- `/packets transmitted/i.test(l) && /received/i.test(l)`. -/
def isUnixStatsLine (l : List Char) : Bool :=
  containsCI "packets transmitted".toList l && containsCI "received".toList l

/-- `/Packets: Sent =/i.test(l)`. -/
def isWinStatsLine (l : List Char) : Bool :=
  containsCI "Packets: Sent =".toList l

/-- `/Minimum =|Average =|Maximum =/i.test(l)`. -/
def isWinTimeLine (l : List Char) : Bool :=
  containsCI "Minimum =".toList l || containsCI "Average =".toList l ||
  containsCI "Maximum =".toList l

/-! ## `parsePingResult` -/

structure PingStats where
  transmitted : Option JSNum
  received : Option JSNum
  loss : Option JSNum
  min : Option JSNum
  avg : Option JSNum
  max : Option JSNum
  raw : List Char
deriving DecidableEq, Repr

def initStats (output : List Char) : PingStats :=
  ⟨none, none, none, none, none, none, output⟩

/-- The Unix summary assignments when the regex matched. -/
def setUnixStats (l : List Char) (r : PingStats) : PingStats :=
  match findUnixStats l with
  | some (t, rc, ls) =>
    { r with transmitted := some (.num (t : ℚ)),
             received := some (.num (rc : ℚ)),
             loss := some (.num (ls : ℚ)) }
  | none => r

/-- Unix summary pass. -/
def applyUnixStats (lines : List (List Char)) (r : PingStats) : PingStats :=
  match lines.find? isUnixStatsLine with
  | some l => setUnixStats l r
  | none => r

/-- The Unix rtt assignments when the regex matched. -/
def setRttStats (l : List Char) (r : PingStats) : PingStats :=
  match findRttTriple l with
  | some (mn, av, mx) =>
    { r with min := some mn, avg := some av, max := some mx }
  | none => r

/-- Unix rtt pass. -/
def applyRtt (lines : List (List Char)) (r : PingStats) : PingStats :=
  match lines.find? rttTest with
  | some l => setRttStats l r
  | none => r

/-- `if (sentMatch) result.transmitted = Number(sentMatch[1])`. -/
def setTransmitted (l : List Char) (r : PingStats) : PingStats :=
  match findKeyEqNum "Sent".toList l with
  | some n => { r with transmitted := some (.num (n : ℚ)) }
  | none => r

/-- `if (recMatch) result.received = Number(recMatch[1])`. -/
def setReceived (l : List Char) (r : PingStats) : PingStats :=
  match findKeyEqNum "Received".toList l with
  | some n => { r with received := some (.num (n : ℚ)) }
  | none => r

/-- `if (lostMatch && result.transmitted != null) result.loss =
Math.round((lost / result.transmitted) * 100)`. -/
def setWinLoss (l : List Char) (r : PingStats) : PingStats :=
  match findKeyEqNum "Lost".toList l, r.transmitted with
  | some lost, some t =>
    let lossVal := jsRound (jsMul (jsDiv (.num (lost : ℚ)) t) (.num 100))
    { r with loss := some lossVal }
  | _, _ => r

/-- Windows `Packets: Sent = …` pass: the three conditional updates in
source order. -/
def applyWinStats (lines : List (List Char)) (r : PingStats) : PingStats :=
  match lines.find? isWinStatsLine with
  | none => r
  | some l => setWinLoss l (setReceived l (setTransmitted l r))

def setMinMs (l : List Char) (r : PingStats) : PingStats :=
  match findKeyEqNumMs "Minimum".toList l with
  | some n => { r with min := some (.num (n : ℚ)) }
  | none => r

def setAvgMs (l : List Char) (r : PingStats) : PingStats :=
  match findKeyEqNumMs "Average".toList l with
  | some n => { r with avg := some (.num (n : ℚ)) }
  | none => r

def setMaxMs (l : List Char) (r : PingStats) : PingStats :=
  match findKeyEqNumMs "Maximum".toList l with
  | some n => { r with max := some (.num (n : ℚ)) }
  | none => r

/-- Windows `Minimum/Average/Maximum = Xms` pass: three independent
conditional updates in source order. -/
def applyWinTimes (lines : List (List Char)) (r : PingStats) : PingStats :=
  match lines.find? isWinTimeLine with
  | none => r
  | some l => setMaxMs l (setAvgMs l (setMinMs l r))

/-- `parsePingResult` from `server.js`: split into lines, then the four
passes in source order. -/
def parsePingResult (output : List Char) : PingStats :=
  let lines := splitLines output
  applyWinTimes lines (applyWinStats lines
    (applyRtt lines (applyUnixStats lines (initStats output))))

/-! ### Parser lemmas -/

theorem setUnixStats_raw (l : List Char) (r : PingStats) :
    (setUnixStats l r).raw = r.raw := by
  unfold setUnixStats
  cases findUnixStats l with
  | none => rfl
  | some v => obtain ⟨t, rc, ls⟩ := v; rfl

theorem applyUnixStats_raw (lines : List (List Char)) (r : PingStats) :
    (applyUnixStats lines r).raw = r.raw := by
  unfold applyUnixStats
  cases lines.find? isUnixStatsLine with
  | none => rfl
  | some l => exact setUnixStats_raw l r

theorem setRttStats_raw (l : List Char) (r : PingStats) :
    (setRttStats l r).raw = r.raw := by
  unfold setRttStats
  cases findRttTriple l with
  | none => rfl
  | some v => obtain ⟨mn, av, mx⟩ := v; rfl

theorem applyRtt_raw (lines : List (List Char)) (r : PingStats) :
    (applyRtt lines r).raw = r.raw := by
  unfold applyRtt
  cases lines.find? rttTest with
  | none => rfl
  | some l => exact setRttStats_raw l r

theorem setTransmitted_raw (l : List Char) (r : PingStats) :
    (setTransmitted l r).raw = r.raw := by
  unfold setTransmitted
  cases findKeyEqNum "Sent".toList l <;> rfl

theorem setReceived_raw (l : List Char) (r : PingStats) :
    (setReceived l r).raw = r.raw := by
  unfold setReceived
  cases findKeyEqNum "Received".toList l <;> rfl

theorem setWinLoss_raw (l : List Char) (r : PingStats) :
    (setWinLoss l r).raw = r.raw := by
  unfold setWinLoss
  cases findKeyEqNum "Lost".toList l <;> cases r.transmitted <;> rfl

theorem applyWinStats_raw (lines : List (List Char)) (r : PingStats) :
    (applyWinStats lines r).raw = r.raw := by
  unfold applyWinStats
  cases lines.find? isWinStatsLine with
  | none => rfl
  | some l =>
    show (setWinLoss l (setReceived l (setTransmitted l r))).raw = r.raw
    rw [setWinLoss_raw, setReceived_raw, setTransmitted_raw]

theorem setMinMs_raw (l : List Char) (r : PingStats) :
    (setMinMs l r).raw = r.raw := by
  unfold setMinMs
  cases findKeyEqNumMs "Minimum".toList l <;> rfl

theorem setAvgMs_raw (l : List Char) (r : PingStats) :
    (setAvgMs l r).raw = r.raw := by
  unfold setAvgMs
  cases findKeyEqNumMs "Average".toList l <;> rfl

theorem setMaxMs_raw (l : List Char) (r : PingStats) :
    (setMaxMs l r).raw = r.raw := by
  unfold setMaxMs
  cases findKeyEqNumMs "Maximum".toList l <;> rfl

theorem applyWinTimes_raw (lines : List (List Char)) (r : PingStats) :
    (applyWinTimes lines r).raw = r.raw := by
  unfold applyWinTimes
  cases lines.find? isWinTimeLine with
  | none => rfl
  | some l =>
    show (setMaxMs l (setAvgMs l (setMinMs l r))).raw = r.raw
    rw [setMaxMs_raw, setAvgMs_raw, setMinMs_raw]

theorem setMinMs_loss (l : List Char) (r : PingStats) :
    (setMinMs l r).loss = r.loss := by
  unfold setMinMs
  cases findKeyEqNumMs "Minimum".toList l <;> rfl

theorem setAvgMs_loss (l : List Char) (r : PingStats) :
    (setAvgMs l r).loss = r.loss := by
  unfold setAvgMs
  cases findKeyEqNumMs "Average".toList l <;> rfl

theorem setMaxMs_loss (l : List Char) (r : PingStats) :
    (setMaxMs l r).loss = r.loss := by
  unfold setMaxMs
  cases findKeyEqNumMs "Maximum".toList l <;> rfl

theorem applyWinTimes_loss (lines : List (List Char)) (r : PingStats) :
    (applyWinTimes lines r).loss = r.loss := by
  unfold applyWinTimes
  cases lines.find? isWinTimeLine with
  | none => rfl
  | some l =>
    show (setMaxMs l (setAvgMs l (setMinMs l r))).loss = r.loss
    rw [setMaxMs_loss, setAvgMs_loss, setMinMs_loss]

theorem setTransmitted_of_some (l : List Char) (r : PingStats) (n : Nat)
    (h : findKeyEqNum "Sent".toList l = some n) :
    setTransmitted l r = { r with transmitted := some (.num (n : ℚ)) } := by
  unfold setTransmitted
  rw [h]

theorem setReceived_transmitted (l : List Char) (r : PingStats) :
    (setReceived l r).transmitted = r.transmitted := by
  unfold setReceived
  cases findKeyEqNum "Received".toList l <;> rfl

theorem setWinLoss_of_some (l : List Char) (r : PingStats)
    (lst : Nat) (t : JSNum)
    (hl : findKeyEqNum "Lost".toList l = some lst)
    (ht : r.transmitted = some t) :
    (setWinLoss l r).loss =
      some (jsRound (jsMul (jsDiv (.num (lst : ℚ)) t) (.num 100))) := by
  unfold setWinLoss
  rw [hl, ht]

/-- When the Windows stats line matches and `Sent`, `Received`, `Lost`
are all extracted, the pass stores the derived loss percentage computed
from the freshly stored `Sent` value. -/
theorem applyWinStats_loss_of_matches (lines : List (List Char))
    (r : PingStats) (l : List Char) (snt rc lst : Nat)
    (hf : lines.find? isWinStatsLine = some l)
    (hs : findKeyEqNum "Sent".toList l = some snt)
    (hrc : findKeyEqNum "Received".toList l = some rc)
    (hl : findKeyEqNum "Lost".toList l = some lst) :
    (applyWinStats lines r).loss =
      some (jsRound (jsMul (jsDiv (.num (lst : ℚ)) (.num (snt : ℚ)))
        (.num 100))) := by
  unfold applyWinStats
  rw [hf]
  have ht : (setReceived l (setTransmitted l r)).transmitted =
      some (.num (snt : ℚ)) := by
    rw [setReceived_transmitted, setTransmitted_of_some l r snt hs]
  show (setWinLoss l (setReceived l (setTransmitted l r))).loss = _
  exact setWinLoss_of_some l _ lst (.num (snt : ℚ)) hl ht

theorem option_eq_none_or_some (o : Option JSNum) :
    o = none ∨ ∃ v, o = some v := by
  cases o with
  | none => exact Or.inl rfl
  | some v => exact Or.inr ⟨v, rfl⟩

/-- The Windows fixture block from the specification. -/
def winFixture : List Char :=
  ("Packets: Sent = 4, Received = 4, Lost = 0 (0% loss)\n" ++
   "    Minimum = 1ms, Maximum = 3ms, Average = 2ms").toList

/-- Its first line. -/
def winLine1 : List Char :=
  ("Packets: Sent = 4, Received = 4, Lost = 0 (0% loss)").toList

/-- Its second line. -/
def winLine2 : List Char :=
  ("    Minimum = 1ms, Maximum = 3ms, Average = 2ms").toList

theorem setReceived_of_some (l : List Char) (r : PingStats) (n : Nat)
    (h : findKeyEqNum "Received".toList l = some n) :
    setReceived l r = { r with received := some (.num (n : ℚ)) } := by
  unfold setReceived
  rw [h]

theorem setWinLoss_eq_of_some (l : List Char) (r : PingStats)
    (lst : Nat) (t : JSNum)
    (hl : findKeyEqNum "Lost".toList l = some lst)
    (ht : r.transmitted = some t) :
    setWinLoss l r = { r with loss := some (jsRound (jsMul (jsDiv (.num (lst : ℚ)) t) (.num 100))) } := by
  unfold setWinLoss
  rw [hl, ht]

theorem setMinMs_of_some (l : List Char) (r : PingStats) (n : Nat)
    (h : findKeyEqNumMs "Minimum".toList l = some n) :
    setMinMs l r = { r with min := some (.num (n : ℚ)) } := by
  unfold setMinMs
  rw [h]

theorem setAvgMs_of_some (l : List Char) (r : PingStats) (n : Nat)
    (h : findKeyEqNumMs "Average".toList l = some n) :
    setAvgMs l r = { r with avg := some (.num (n : ℚ)) } := by
  unfold setAvgMs
  rw [h]

theorem setMaxMs_of_some (l : List Char) (r : PingStats) (n : Nat)
    (h : findKeyEqNumMs "Maximum".toList l = some n) :
    setMaxMs l r = { r with max := some (.num (n : ℚ)) } := by
  unfold setMaxMs
  rw [h]

/-! ## Download endpoint (`/api/speedtest/download`)

`Number(req.query.size || 25*1024*1024)` → clamp into `[1024, 50 MiB]`
→ set the length header → stream 64 KiB chunks of a fixed pattern
buffer, bumping its first byte before each chunk, ending exactly when
`remaining` is exhausted.  The query parameter is `none` (absent) or a
string; `Number()` is modelled on decimal literals and the `Infinity`
forms (hex/octal/binary literal strings do not occur in any claim). -/

/-- `Math.min`. -/
def jsMinNum : JSNum → JSNum → JSNum
  | .nan, _ => .nan
  | _, .nan => .nan
  | .num a, .num b => .num (min a b)
  | .inf, y => y
  | y, .inf => y
  | .ninf, _ => .ninf
  | _, .ninf => .ninf

/-- `Math.max`. -/
def jsMaxNum : JSNum → JSNum → JSNum
  | .nan, _ => .nan
  | _, .nan => .nan
  | .num a, .num b => .num (max a b)
  | .inf, _ => .inf
  | _, .inf => .inf
  | .ninf, y => y
  | y, .ninf => y

/-- Exponent part of a decimal literal: empty, or `e|E` with optional
sign and a non-empty digit run consuming the whole rest. -/
def parseExpPart : List Char → Option Int
  | [] => some 0
  | c :: rest =>
    if c = 'e' ∨ c = 'E' then
      match rest with
      | '+' :: ds =>
        if ds ≠ [] ∧ ds.all isAsciiDigit then some (digitsToNat ds) else none
      | '-' :: ds =>
        if ds ≠ [] ∧ ds.all isAsciiDigit then some (-(digitsToNat ds : Int))
        else none
      | ds =>
        if ds ≠ [] ∧ ds.all isAsciiDigit then some (digitsToNat ds) else none
    else none

/-- Unsigned decimal literal split into integer digits, fraction digits
and exponent; `none` when the string is not such a literal. -/
def parseDecParts (l : List Char) : Option (List Char × List Char × Int) :=
  let intDigits := l.takeWhile isAsciiDigit
  let r1 := l.dropWhile isAsciiDigit
  match r1 with
  | '.' :: r2 =>
    let fracDigits := r2.takeWhile isAsciiDigit
    let r3 := r2.dropWhile isAsciiDigit
    if intDigits.isEmpty && fracDigits.isEmpty then none
    else
      match parseExpPart r3 with
      | some e => some (intDigits, fracDigits, e)
      | none => none
  | _ =>
    if intDigits.isEmpty then none
    else
      match parseExpPart r1 with
      | some e => some (intDigits, [], e)
      | none => none

/-- The rational value of a parsed decimal literal. -/
def decPartsValue : List Char × List Char × Int → ℚ
  | (i, f, e) =>
    ((digitsToNat i : ℚ) + (digitsToNat f : ℚ) / (10 : ℚ) ^ f.length) *
      (10 : ℚ) ^ e

/-- `Number(string)`: trim; empty → 0; `±Infinity`; else a signed
decimal literal, `NaN` otherwise. -/
def jsToNumber (s : List Char) : JSNum :=
  let t := jsTrim s
  if t.isEmpty then .num 0
  else if t = "Infinity".toList then .inf
  else if t = "+Infinity".toList then .inf
  else if t = "-Infinity".toList then .ninf
  else
    match t with
    | '+' :: r =>
      match parseDecParts r with
      | some p => .num (decPartsValue p)
      | none => .nan
    | '-' :: r =>
      match parseDecParts r with
      | some p => .num (-(decPartsValue p))
      | none => .nan
    | r =>
      match parseDecParts r with
      | some p => .num (decPartsValue p)
      | none => .nan

/-- `Number(req.query.size || 25*1024*1024)`: absent and the empty
string are falsy and give the default. -/
def downloadSizeParam (q : Option (List Char)) : JSNum :=
  match q with
  | none => .num 26214400
  | some s => if s.isEmpty then .num 26214400 else jsToNumber s

/-- `Math.max(1024, Math.min(sizeParam, MAX_SIZE))`. -/
def downloadClamp (sizeParam : JSNum) : JSNum :=
  jsMaxNum (.num 1024) (jsMinNum sizeParam (.num 52428800))

/-- The pattern fill `(i * 97 + 31) & 0xff`. -/
def patternByte (j : Nat) : Nat := (j * 97 + 31) % 256

/-- The first `n` bytes of the chunk buffer whose byte 0 currently
holds `b0` (bytes 1… keep the pattern fill). -/
def chunkBytes (b0 n : Nat) : List Nat :=
  (List.range n).map (fun j => if j = 0 then b0 else patternByte j)

/-- The `writeMore` loop: while `remaining > 0`, bump the first byte,
write `min(CHUNK, remaining)` bytes of the buffer (`subarray` truncates
a fractional bound toward zero), and subtract.  Pausing on backpressure
and resuming on `drain` does not change the byte sequence and is not
modelled. -/
def writeLoop (remaining : ℚ) (b0 : Nat) : List Nat :=
  if h : 0 < remaining then
    let toWrite := min 65536 remaining
    let b1 := (b0 + 1) % 256
    chunkBytes b1 (⌊toWrite⌋).toNat ++ writeLoop (remaining - toWrite) b1
  else []
termination_by (⌈remaining / 65536⌉).toNat
decreasing_by
  have h65 : (0 : ℚ) < 65536 := by norm_num
  rcases le_or_lt remaining 65536 with hle | hgt
  · have hmin : min (65536 : ℚ) remaining = remaining := min_eq_right hle
    rw [hmin, sub_self, zero_div, Int.ceil_zero]
    have hp : 0 < ⌈remaining / 65536⌉ := Int.ceil_pos.mpr (div_pos h h65)
    omega
  · have hmin : min (65536 : ℚ) remaining = 65536 := min_eq_left hgt.le
    rw [hmin]
    have hdiv : (remaining - 65536) / 65536 = remaining / 65536 - 1 := by
      rw [sub_div, div_self (by norm_num : (65536 : ℚ) ≠ 0)]
    rw [hdiv, Int.ceil_sub_one]
    have hp : 0 < ⌈remaining / 65536⌉ := Int.ceil_pos.mpr (div_pos h h65)
    omega

/-- The stream the handler produces for a clamped size: a rational size
runs the loop with the buffer initialised to `patternByte 0 = 31`; for
`NaN` the `while` guard is false at once and no byte is written.  (The
clamp never returns an infinity, so those rows are unreachable.) -/
def downloadBody : JSNum → List Nat
  | .num q => writeLoop q 31
  | _ => []

structure DlResponse where
  contentLength : JSNum
  body : List Nat
deriving Repr

/-- The whole download handler. -/
def downloadHandler (q : Option (List Char)) : DlResponse :=
  let size := downloadClamp (downloadSizeParam q)
  ⟨size, downloadBody size⟩

/-- The clamp on an integer request, as a natural number. -/
def clampInt (k : Int) : Nat := (max 1024 (min k 52428800)).toNat

/-! ### Download lemmas -/

theorem chunkBytes_length (b0 n : Nat) : (chunkBytes b0 n).length = n := by
  simp [chunkBytes]

/-- The loop writes exactly `n` bytes for a natural-number size. -/
theorem writeLoop_length (n : Nat) : ∀ b0 : Nat,
    (writeLoop (n : ℚ) b0).length = n := by
  induction n using Nat.strong_induction_on with
  | _ n ih =>
    intro b0
    rcases Nat.eq_zero_or_pos n with hn | hn
    · subst hn
      rw [writeLoop]
      simp
    · have hpos : 0 < (n : ℚ) := by exact_mod_cast hn
      rw [writeLoop, dif_pos hpos]
      have hminc : min (65536 : ℚ) (n : ℚ) = ((min 65536 n : ℕ) : ℚ) := by
        push_cast
        rfl
      have hfl : (⌊min (65536 : ℚ) (n : ℚ)⌋).toNat = min 65536 n := by
        rw [hminc, Int.floor_natCast, Int.toNat_natCast]
      have hsub : (n : ℚ) - min (65536 : ℚ) (n : ℚ) =
          ((n - min 65536 n : ℕ) : ℚ) := by
        rw [hminc, Nat.cast_sub (Nat.min_le_right 65536 n)]
      simp only [List.length_append, chunkBytes_length, hfl, hsub]
      rw [ih (n - min 65536 n) (by omega)]
      omega

/-- Unfolding one full 64 KiB chunk when at least that much remains. -/
theorem writeLoop_big (q : ℚ) (b0 : Nat) (h : 65536 ≤ q) :
    writeLoop q b0 =
      chunkBytes ((b0 + 1) % 256) 65536 ++
        writeLoop (q - 65536) ((b0 + 1) % 256) := by
  rw [writeLoop, dif_pos (lt_of_lt_of_le (by norm_num) h)]
  have hmin : min (65536 : ℚ) q = 65536 := min_eq_left h
  simp only [hmin]
  norm_num
  rfl

/-- The `k`-th full chunk of the stream is the pattern buffer with its
first byte bumped `k + 1` times. -/
theorem writeLoop_chunk : ∀ (k n b0 : Nat), (k + 1) * 65536 ≤ n →
    ((writeLoop (n : ℚ) b0).drop (k * 65536)).take 65536 =
      chunkBytes ((b0 + k + 1) % 256) 65536 := by
  intro k
  induction k with
  | zero =>
    intro n b0 h
    have h1 : (65536 : ℚ) ≤ (n : ℚ) := by exact_mod_cast (by omega : 65536 ≤ n)
    rw [writeLoop_big _ _ h1]
    simp only [Nat.zero_mul, List.drop_zero]
    rw [List.take_left' (chunkBytes_length _ _)]
  | succ k ihk =>
    intro n b0 h
    have h1 : (65536 : ℚ) ≤ (n : ℚ) := by exact_mod_cast (by omega : 65536 ≤ n)
    rw [writeLoop_big _ _ h1]
    rw [show (k + 1) * 65536 = 65536 + k * 65536 from by ring]
    rw [← List.drop_drop]
    rw [List.drop_left' (chunkBytes_length _ _)]
    have hsub : (n : ℚ) - 65536 = ((n - 65536 : ℕ) : ℚ) := by
      rw [Nat.cast_sub (by omega : 65536 ≤ n)]
      norm_num
    rw [hsub, ihk (n - 65536) ((b0 + 1) % 256) (by omega)]
    rw [show ((b0 + 1) % 256 + k + 1) % 256 = (b0 + (k + 1) + 1) % 256 from by
      omega]

theorem chunkBytes_head (b0 : Nat) : (chunkBytes b0 65536).head? = some b0 := by
  rw [show (65536 : ℕ) = 65535 + 1 from rfl, chunkBytes,
    List.range_succ_eq_map]
  simp

/-- Consecutive full chunks of one stream always differ (their first
bytes are consecutive mod 256). -/
theorem writeLoop_consecutive_chunks_differ (n i b0 : Nat)
    (h : (i + 2) * 65536 ≤ n) :
    ((writeLoop (n : ℚ) b0).drop (i * 65536)).take 65536 ≠
      ((writeLoop (n : ℚ) b0).drop ((i + 1) * 65536)).take 65536 := by
  rw [writeLoop_chunk i n b0 (by omega), writeLoop_chunk (i + 1) n b0 (by omega)]
  intro heq
  have hh := congrArg List.head? heq
  rw [chunkBytes_head, chunkBytes_head] at hh
  have : (b0 + i + 1) % 256 = (b0 + (i + 1) + 1) % 256 := by
    exact Option.some.inj hh
  omega

/-- The clamp of an integer size, on the `JSNum` level. -/
theorem downloadClamp_int (k : Int) :
    downloadClamp (.num (k : ℚ)) = .num ((clampInt k : ℕ) : ℚ) := by
  have h0 : (0 : ℤ) ≤ max 1024 (min k 52428800) :=
    le_trans (by norm_num) (le_max_left _ _)
  have h1 : ((max 1024 (min k 52428800)).toNat : ℤ) =
      max 1024 (min k 52428800) := Int.toNat_of_nonneg h0
  simp only [downloadClamp, jsMinNum, jsMaxNum, JSNum.num.injEq]
  have h2 : ((clampInt k : ℕ) : ℚ) =
      ((max 1024 (min k 52428800) : ℤ) : ℚ) := by
    rw [clampInt]
    exact_mod_cast congrArg (fun z : ℤ => (z : ℚ)) h1
  rw [h2]
  push_cast
  rfl

/-! ## Diagnostic endpoint handlers (`/api/ping`, `/api/traceroute`)

Each handler validates the `host` query value; on failure it responds
HTTP 400 without invoking the Command Runner; on success it runs the
command and reports `ok = !timedOut && code === 0`.  The first
component of the result records whether a process was spawned. -/

inductive PingResp where
  | badRequest
  | ok (okFlag : Bool) (exitCode : Option Int) (timedOut : Bool)
      (stats : PingStats)
deriving DecidableEq, Repr

inductive TraceResp where
  | badRequest
  | ok (okFlag : Bool) (exitCode : Option Int) (timedOut : Bool)
      (output : List Char)
deriving DecidableEq, Repr

/-- `stdout + (stderr ? '\n' + stderr : '')`. -/
def combineOutErr (out err : List Char) : List Char :=
  out ++ (if err.isEmpty then [] else '\n' :: err)

def pingHandler (hostQ : JSVal) (run : CommandResult) : Bool × PingResp :=
  match validateHost hostQ with
  | none => (false, .badRequest)
  | some _ =>
    (true, .ok (!run.timedOut && decide (run.code = some 0)) run.code
      run.timedOut (parsePingResult (combineOutErr run.stdout run.stderr)))

def tracerouteHandler (hostQ : JSVal) (run : CommandResult) :
    Bool × TraceResp :=
  match validateHost hostQ with
  | none => (false, .badRequest)
  | some _ =>
    (true, .ok (!run.timedOut && decide (run.code = some 0)) run.code
      run.timedOut (combineOutErr run.stdout run.stderr))

def pingRespOk : PingResp → Option Bool
  | .badRequest => none
  | .ok b _ _ _ => some b

def traceRespOk : TraceResp → Option Bool
  | .badRequest => none
  | .ok b _ _ _ => some b

/-! ## Upload endpoint (`/api/speedtest/upload`)

`req.body?.length || 0`: when no parser ran, `req.body` is undefined
(optional chaining gives `undefined`, `|| 0` gives 0); when the raw
parser skipped a non-matching content type it left `req.body = {}`
(`.length` is `undefined`, again 0); a parsed `Buffer` contributes its
length (0 is falsy, but `0 || 0` is still 0). -/

inductive UploadBody where
  | buffer (len : Nat)
  | emptyObject
  | absent
deriving DecidableEq, Repr

def uploadBytes : UploadBody → Nat
  | .buffer n => n
  | .emptyObject => 0
  | .absent => 0

inductive UploadResp where
  | payloadTooLarge
  | okReceived (receivedBytes : Nat)
deriving DecidableEq, Repr

/-- The handler: 413 iff the measured length strictly exceeds
`MAX_BYTES = 200 * 1024 * 1024`, else 200 with the byte count. -/
def uploadHandler (b : UploadBody) : UploadResp :=
  if 209715200 < uploadBytes b then .payloadTooLarge
  else .okReceived (uploadBytes b)

end NetUtil

/-- Claim C1: the host validator accepts exactly the inputs that, after
trimming surrounding whitespace, are non-empty strings of length at most
255 consisting only of characters in `[A-Za-z0-9.\-:]`; on acceptance it
returns the trimmed string; non-string input is always rejected. -/
theorem claim_C1_validateHost_characterisation :
    NetUtil.validateHost .nonString = none ∧
    ∀ s r : List Char,
      NetUtil.validateHost (.str s) = some r ↔
        r = NetUtil.jsTrim s ∧ r ≠ [] ∧ r.length ≤ 255 ∧
          r.all NetUtil.isAllowedHostChar = true :=
  ⟨rfl, NetUtil.validateHost_str_eq_some⟩

/-- Claim C9: the validator is idempotent on accepted outputs — whenever
`validateHost v = some r`, validating the string `r` again returns `r`
unchanged. -/
theorem claim_C9_validateHost_idempotent (v : NetUtil.JSVal) (r : List Char)
    (h : NetUtil.validateHost v = some r) :
    NetUtil.validateHost (.str r) = some r := by
  cases v with
  | nonString => exact absurd h (by simp [NetUtil.validateHost])
  | str s =>
    obtain ⟨hr, hne, hlen, hall⟩ := (NetUtil.validateHost_str_eq_some s r).mp h
    have hnows : ∀ c ∈ r, NetUtil.isJsWs c = false := by
      intro c hc
      exact NetUtil.allowed_not_ws (by
        have := List.all_eq_true.mp hall c hc
        simpa using this)
    exact (NetUtil.validateHost_str_eq_some r r).mpr
      ⟨(NetUtil.jsTrim_eq_self_of_no_ws hnows).symm, hne, hlen, hall⟩

/-- Witness for C9 at a concrete input: `" a.b "` is accepted as `"a.b"`,
and validating `"a.b"` again returns it unchanged. -/
theorem claim_C9_witness :
    NetUtil.validateHost (.str [' ', 'a', '.', 'b', ' ']) =
      some ['a', '.', 'b'] ∧
    NetUtil.validateHost (.str ['a', '.', 'b']) = some ['a', '.', 'b'] :=
  ⟨by decide, claim_C9_validateHost_idempotent
    (.str [' ', 'a', '.', 'b', ' ']) ['a', '.', 'b'] (by decide)⟩

/-- Claim C2: the Command Runner resolves exactly once — every trace
produces at most one resolution; whichever terminal event (timeout,
spawn error, normal exit) occurs first, the invocation resolves exactly
once, later events cannot change the resolution, and the timer is
disarmed. -/
theorem claim_C2_runCommand_exactly_once :
    (∀ events : List NetUtil.REvent,
      (NetUtil.runCommandTrace events).resolved.length ≤ 1) ∧
    (∀ (pre : List NetUtil.REvent) (t : NetUtil.REvent)
        (post : List NetUtil.REvent),
      (∀ e ∈ pre, NetUtil.isTerminal e = false) →
      NetUtil.isTerminal t = true →
      (NetUtil.runCommandTrace (pre ++ t :: post)).resolved =
          (NetUtil.runCommandTrace (pre ++ [t])).resolved ∧
        (NetUtil.runCommandTrace (pre ++ t :: post)).resolved.length = 1 ∧
        (NetUtil.runCommandTrace (pre ++ t :: post)).timerArmed = false) := by
  constructor
  · intro events
    have h := NetUtil.runInv_foldl events NetUtil.runInv_init
    rcases h with ⟨-, -, hr⟩ | ⟨-, -, hr⟩
    · simp [NetUtil.runCommandTrace, hr]
    · simp [NetUtil.runCommandTrace, hr]
  · intro pre t post hpre ht
    obtain ⟨h1, -, h3⟩ := NetUtil.runCommandTrace_decomp pre t post hpre ht
    obtain ⟨h4, -, -⟩ := NetUtil.runCommandTrace_decomp pre t [] hpre ht
    exact ⟨h1.trans h4.symm, by simp [h1], h3⟩

/-- Witness for C2 at a concrete trace: stdout data, then a normal exit
with code 0, then a (stale) timer firing; the run resolves once, the
late timer event is ignored, and the timer is disarmed. -/
theorem claim_C2_witness :
    (NetUtil.runCommandTrace
        ([.dataOut ['x']] ++ .closeEv (some 0) :: [.timerFire])).resolved =
      (NetUtil.runCommandTrace
        ([.dataOut ['x']] ++ [.closeEv (some 0)])).resolved ∧
    (NetUtil.runCommandTrace
        ([.dataOut ['x']] ++ .closeEv (some 0) :: [.timerFire])).resolved.length
      = 1 ∧
    (NetUtil.runCommandTrace
        ([.dataOut ['x']] ++ .closeEv (some 0) :: [.timerFire])).timerArmed
      = false :=
  claim_C2_runCommand_exactly_once.2 [.dataOut ['x']] (.closeEv (some 0))
    [.timerFire] (by decide) (by decide)

/-- Claim C3: outcome contents per first terminal event — a timeout
yields `timedOut = true`, `exitCode = null`, and the accumulated stderr
suffixed with the timeout marker; a spawn error yields `exitCode =
null`, `timedOut = false`, and the spawn error text as stderr; a normal
exit carries the real exit code with `timedOut = false`. -/
theorem claim_C3_runCommand_outcomes (pre post : List NetUtil.REvent)
    (hpre : ∀ e ∈ pre, NetUtil.isTerminal e = false) :
    ((NetUtil.runCommandTrace (pre ++ .timerFire :: post)).resolved =
      [⟨none, NetUtil.accOut pre,
        NetUtil.accErr pre ++ NetUtil.timeoutMarker, true⟩]) ∧
    (∀ msg : List Char,
      (NetUtil.runCommandTrace (pre ++ .errorEv msg :: post)).resolved =
        [⟨none, NetUtil.accOut pre, msg, false⟩]) ∧
    (∀ c : Option Int,
      (NetUtil.runCommandTrace (pre ++ .closeEv c :: post)).resolved =
        [⟨c, NetUtil.accOut pre, NetUtil.accErr pre, false⟩]) :=
  ⟨(NetUtil.runCommandTrace_decomp pre .timerFire post hpre rfl).1,
   fun msg => (NetUtil.runCommandTrace_decomp pre (.errorEv msg) post hpre rfl).1,
   fun c => (NetUtil.runCommandTrace_decomp pre (.closeEv c) post hpre rfl).1⟩

/-- Witness for C3 at a concrete trace prefix (one stdout chunk, one
stderr chunk): the three outcome shapes at that prefix. -/
theorem claim_C3_witness :
    ((NetUtil.runCommandTrace
        ([.dataOut ['o'], .dataErr ['e']] ++ .timerFire :: [])).resolved =
      [⟨none, NetUtil.accOut [.dataOut ['o'], .dataErr ['e']],
        NetUtil.accErr [.dataOut ['o'], .dataErr ['e']] ++
          NetUtil.timeoutMarker, true⟩]) ∧
    (∀ msg : List Char,
      (NetUtil.runCommandTrace
          ([.dataOut ['o'], .dataErr ['e']] ++ .errorEv msg :: [])).resolved =
        [⟨none, NetUtil.accOut [.dataOut ['o'], .dataErr ['e']], msg, false⟩]) ∧
    (∀ c : Option Int,
      (NetUtil.runCommandTrace
          ([.dataOut ['o'], .dataErr ['e']] ++ .closeEv c :: [])).resolved =
        [⟨c, NetUtil.accOut [.dataOut ['o'], .dataErr ['e']],
          NetUtil.accErr [.dataOut ['o'], .dataErr ['e']], false⟩]) :=
  claim_C3_runCommand_outcomes [.dataOut ['o'], .dataErr ['e']] [] (by decide)

/-- Claim C4: the ping output parser is pure and total — for every
input string it produces a `PingStats` record whose `raw` field equals
the full input, and each numeric field is either a (typed) number or
null. -/
theorem claim_C4_parser_total (output : List Char) :
    (NetUtil.parsePingResult output).raw = output ∧
    ((NetUtil.parsePingResult output).transmitted = none ∨
      ∃ v, (NetUtil.parsePingResult output).transmitted = some v) ∧
    ((NetUtil.parsePingResult output).received = none ∨
      ∃ v, (NetUtil.parsePingResult output).received = some v) ∧
    ((NetUtil.parsePingResult output).loss = none ∨
      ∃ v, (NetUtil.parsePingResult output).loss = some v) ∧
    ((NetUtil.parsePingResult output).min = none ∨
      ∃ v, (NetUtil.parsePingResult output).min = some v) ∧
    ((NetUtil.parsePingResult output).avg = none ∨
      ∃ v, (NetUtil.parsePingResult output).avg = some v) ∧
    ((NetUtil.parsePingResult output).max = none ∨
      ∃ v, (NetUtil.parsePingResult output).max = some v) := by
  refine ⟨?_, NetUtil.option_eq_none_or_some _, NetUtil.option_eq_none_or_some _,
    NetUtil.option_eq_none_or_some _, NetUtil.option_eq_none_or_some _,
    NetUtil.option_eq_none_or_some _, NetUtil.option_eq_none_or_some _⟩
  show (NetUtil.applyWinTimes (NetUtil.splitLines output)
    (NetUtil.applyWinStats (NetUtil.splitLines output)
      (NetUtil.applyRtt (NetUtil.splitLines output)
        (NetUtil.applyUnixStats (NetUtil.splitLines output)
          (NetUtil.initStats output))))).raw = output
  rw [NetUtil.applyWinTimes_raw, NetUtil.applyWinStats_raw,
    NetUtil.applyRtt_raw, NetUtil.applyUnixStats_raw]
  rfl

/-- Claim C5: whenever a Windows stats line is found and `Sent`,
`Received` and `Lost` are all extracted, the parser derives the loss
field as `Math.round((lost / transmitted) * 100)` (with `transmitted`
the extracted `Sent` value); and on the specification's Windows fixture
it yields transmitted 4, received 4, loss 0, min 1, avg 2, max 3. -/
theorem claim_C5_windows_loss_derivation :
    (∀ (output l : List Char) (snt rc lst : Nat),
      (NetUtil.splitLines output).find? NetUtil.isWinStatsLine = some l →
      NetUtil.findKeyEqNum "Sent".toList l = some snt →
      NetUtil.findKeyEqNum "Received".toList l = some rc →
      NetUtil.findKeyEqNum "Lost".toList l = some lst →
      (NetUtil.parsePingResult output).loss =
        some (NetUtil.jsRound (NetUtil.jsMul
          (NetUtil.jsDiv (.num (lst : ℚ)) (.num (snt : ℚ))) (.num 100)))) ∧
    NetUtil.parsePingResult NetUtil.winFixture =
      ⟨some (.num 4), some (.num 4), some (.num 0),
       some (.num 1), some (.num 2), some (.num 3), NetUtil.winFixture⟩ := by
  constructor
  · intro output l snt rc lst hf hs hrc hl
    show (NetUtil.applyWinTimes (NetUtil.splitLines output)
      (NetUtil.applyWinStats (NetUtil.splitLines output)
        (NetUtil.applyRtt (NetUtil.splitLines output)
          (NetUtil.applyUnixStats (NetUtil.splitLines output)
            (NetUtil.initStats output))))).loss = _
    rw [NetUtil.applyWinTimes_loss]
    exact NetUtil.applyWinStats_loss_of_matches _ _ l snt rc lst hf hs hrc hl
  · have h1 : (NetUtil.splitLines NetUtil.winFixture).find?
        NetUtil.isUnixStatsLine = none := by decide
    have h2 : (NetUtil.splitLines NetUtil.winFixture).find?
        NetUtil.rttTest = none := by decide
    have h3 : (NetUtil.splitLines NetUtil.winFixture).find?
        NetUtil.isWinStatsLine = some NetUtil.winLine1 := by decide
    have h5 : (NetUtil.splitLines NetUtil.winFixture).find?
        NetUtil.isWinTimeLine = some NetUtil.winLine2 := by decide
    have hS : NetUtil.findKeyEqNum "Sent".toList NetUtil.winLine1 = some 4 := by
      decide
    have hR : NetUtil.findKeyEqNum "Received".toList NetUtil.winLine1 =
        some 4 := by decide
    have hL : NetUtil.findKeyEqNum "Lost".toList NetUtil.winLine1 = some 0 := by
      decide
    have hMn : NetUtil.findKeyEqNumMs "Minimum".toList NetUtil.winLine2 =
        some 1 := by decide
    have hAv : NetUtil.findKeyEqNumMs "Average".toList NetUtil.winLine2 =
        some 2 := by decide
    have hMx : NetUtil.findKeyEqNumMs "Maximum".toList NetUtil.winLine2 =
        some 3 := by decide
    show NetUtil.applyWinTimes (NetUtil.splitLines NetUtil.winFixture)
      (NetUtil.applyWinStats (NetUtil.splitLines NetUtil.winFixture)
        (NetUtil.applyRtt (NetUtil.splitLines NetUtil.winFixture)
          (NetUtil.applyUnixStats (NetUtil.splitLines NetUtil.winFixture)
            (NetUtil.initStats NetUtil.winFixture)))) = _
    rw [show NetUtil.applyUnixStats (NetUtil.splitLines NetUtil.winFixture)
        (NetUtil.initStats NetUtil.winFixture) =
        NetUtil.initStats NetUtil.winFixture by
      unfold NetUtil.applyUnixStats
      rw [h1]]
    rw [show NetUtil.applyRtt (NetUtil.splitLines NetUtil.winFixture)
        (NetUtil.initStats NetUtil.winFixture) =
        NetUtil.initStats NetUtil.winFixture by
      unfold NetUtil.applyRtt
      rw [h2]]
    have hws : NetUtil.applyWinStats (NetUtil.splitLines NetUtil.winFixture)
        (NetUtil.initStats NetUtil.winFixture) =
        ⟨some (.num 4), some (.num 4), some (.num 0),
         none, none, none, NetUtil.winFixture⟩ := by
      unfold NetUtil.applyWinStats
      rw [h3]
      show NetUtil.setWinLoss NetUtil.winLine1
        (NetUtil.setReceived NetUtil.winLine1
          (NetUtil.setTransmitted NetUtil.winLine1
            (NetUtil.initStats NetUtil.winFixture))) = _
      rw [NetUtil.setTransmitted_of_some _ _ 4 hS,
        NetUtil.setReceived_of_some _ _ 4 hR,
        NetUtil.setWinLoss_eq_of_some _ _ 0 (.num ((4 : ℕ) : ℚ)) hL rfl]
      have hval : NetUtil.jsRound (NetUtil.jsMul
          (NetUtil.jsDiv (.num ((0 : ℕ) : ℚ)) (.num ((4 : ℕ) : ℚ)))
          (.num 100)) = .num 0 := by
        norm_num [NetUtil.jsDiv, NetUtil.jsMul, NetUtil.jsRound]
      rw [hval]
      norm_num [NetUtil.initStats]
    rw [hws]
    rw [show NetUtil.applyWinTimes (NetUtil.splitLines NetUtil.winFixture)
        (⟨some (.num 4), some (.num 4), some (.num 0),
          none, none, none, NetUtil.winFixture⟩ : NetUtil.PingStats) =
        NetUtil.setMaxMs NetUtil.winLine2 (NetUtil.setAvgMs NetUtil.winLine2
          (NetUtil.setMinMs NetUtil.winLine2
            (⟨some (.num 4), some (.num 4), some (.num 0),
              none, none, none, NetUtil.winFixture⟩ : NetUtil.PingStats))) by
      unfold NetUtil.applyWinTimes
      rw [h5]]
    rw [NetUtil.setMinMs_of_some _ _ 1 hMn, NetUtil.setAvgMs_of_some _ _ 2 hAv,
      NetUtil.setMaxMs_of_some _ _ 3 hMx]
    norm_num

/-- Witness for C5's derivation rule at the fixture's stats line. -/
theorem claim_C5_witness :
    (NetUtil.parsePingResult NetUtil.winFixture).loss =
      some (NetUtil.jsRound (NetUtil.jsMul
        (NetUtil.jsDiv (.num ((0 : ℕ) : ℚ)) (.num ((4 : ℕ) : ℚ)))
        (.num 100))) :=
  claim_C5_windows_loss_derivation.1 NetUtil.winFixture NetUtil.winLine1
    4 4 0 (by decide) (by decide) (by decide) (by decide)

/-- Claim C6 counterexample: for the request `size=abc` the computed
size is `NaN` — it is not clamped into `[1 KiB, 50 MiB]` (it is not a
number at all), the length header is set to `NaN`, and the body is
empty (0 bytes), contradicting the claim's universal quantification
over every download request. -/
theorem claim_C6_counterexample :
    NetUtil.downloadSizeParam (some "abc".toList) = .nan ∧
    NetUtil.downloadClamp (NetUtil.downloadSizeParam (some "abc".toList)) =
      .nan ∧
    (∀ q : ℚ,
      NetUtil.downloadClamp (NetUtil.downloadSizeParam (some "abc".toList)) ≠
        .num q) ∧
    (NetUtil.downloadBody (NetUtil.downloadClamp
      (NetUtil.downloadSizeParam (some "abc".toList)))).length = 0 := by
  have h : NetUtil.downloadSizeParam (some "abc".toList) = .nan := rfl
  refine ⟨h, by rw [h]; rfl, ?_, by rw [h]; rfl⟩
  intro q heq
  rw [h, show NetUtil.downloadClamp .nan = .nan from rfl] at heq
  exact NetUtil.JSNum.noConfusion heq

/-- Claim C6 (amended): whenever the size parameter is absent or parses
to an integral number, the size is clamped into `[1 KiB, 50 MiB]`, the
length header carries the clamped size, and the body has exactly the
clamped number of bytes; `size=999999999` is clamped to 50 MiB and
`size=10000000` yields exactly 10000000 bytes (a non-numeric or
fractional size parameter escapes this guarantee, as the counterexample
shows). -/
theorem claim_C6_download_clamp :
    (∀ k : Int,
      NetUtil.downloadClamp (.num (k : ℚ)) =
          .num ((NetUtil.clampInt k : ℕ) : ℚ) ∧
        1024 ≤ NetUtil.clampInt k ∧ NetUtil.clampInt k ≤ 52428800 ∧
        (NetUtil.downloadBody
          (NetUtil.downloadClamp (.num (k : ℚ)))).length =
            NetUtil.clampInt k) ∧
    NetUtil.downloadSizeParam none = .num 26214400 ∧
    NetUtil.downloadSizeParam (some "999999999".toList) = .num 999999999 ∧
    NetUtil.downloadSizeParam (some "10000000".toList) = .num 10000000 ∧
    NetUtil.clampInt 999999999 = 52428800 ∧
    NetUtil.clampInt 10000000 = 10000000 ∧
    NetUtil.clampInt 26214400 = 26214400 := by
  refine ⟨?_, rfl, ?_, ?_, ?_, ?_, ?_⟩
  · intro k
    have hb : 1024 ≤ NetUtil.clampInt k ∧ NetUtil.clampInt k ≤ 52428800 := by
      unfold NetUtil.clampInt
      rcases le_total k 52428800 with h | h
      · rw [min_eq_left h]
        rcases le_total (1024 : Int) k with h2 | h2
        · rw [max_eq_right h2]; omega
        · rw [max_eq_left h2]; omega
      · rw [min_eq_right h,
          max_eq_right (by norm_num : (1024 : Int) ≤ 52428800)]
        omega
    refine ⟨NetUtil.downloadClamp_int k, hb.1, hb.2, ?_⟩
    rw [NetUtil.downloadClamp_int k]
    show (NetUtil.writeLoop ((NetUtil.clampInt k : ℕ) : ℚ) 31).length =
      NetUtil.clampInt k
    exact NetUtil.writeLoop_length (NetUtil.clampInt k) 31
  · rw [show NetUtil.downloadSizeParam (some "999999999".toList) =
        .num (NetUtil.decPartsValue ("999999999".toList, [], 0)) from rfl]
    rw [show NetUtil.decPartsValue ("999999999".toList, [], 0) =
        (999999999 : ℚ) from by
      simp only [NetUtil.decPartsValue]
      rw [show NetUtil.digitsToNat "999999999".toList = 999999999 from by
        decide, show NetUtil.digitsToNat ([] : List Char) = 0 from rfl]
      norm_num]
  · rw [show NetUtil.downloadSizeParam (some "10000000".toList) =
        .num (NetUtil.decPartsValue ("10000000".toList, [], 0)) from rfl]
    rw [show NetUtil.decPartsValue ("10000000".toList, [], 0) =
        (10000000 : ℚ) from by
      simp only [NetUtil.decPartsValue]
      rw [show NetUtil.digitsToNat "10000000".toList = 10000000 from by
        decide, show NetUtil.digitsToNat ([] : List Char) = 0 from rfl]
      norm_num]
  · unfold NetUtil.clampInt
    rw [min_eq_right (by norm_num), max_eq_right (by norm_num)]
    rfl
  · unfold NetUtil.clampInt
    rw [min_eq_left (by norm_num), max_eq_right (by norm_num)]
    rfl
  · unfold NetUtil.clampInt
    rw [min_eq_left (by norm_num), max_eq_right (by norm_num)]
    rfl

/-- Claim C7 counterexample: the download handler is a pure function of
the request — two requests with the same size produce byte-identical
streams (the chunk buffer and its perturbed first byte are
request-scoped and initialised identically on every request), so the
claimed difference between consecutive equal-size requests is false;
the stream here is non-trivial (2048 bytes). -/
theorem claim_C7_counterexample :
    NetUtil.downloadHandler (some "2048".toList) =
      NetUtil.downloadHandler (some "2048".toList) ∧
    (NetUtil.downloadHandler (some "2048".toList)).body.length = 2048 := by
  refine ⟨rfl, ?_⟩
  show (NetUtil.downloadBody (NetUtil.downloadClamp
    (NetUtil.downloadSizeParam (some "2048".toList)))).length = 2048
  rw [show NetUtil.downloadSizeParam (some "2048".toList) =
      .num (NetUtil.decPartsValue ("2048".toList, [], 0)) from rfl]
  rw [show NetUtil.decPartsValue ("2048".toList, [], 0) =
      ((2048 : Int) : ℚ) from by
    simp only [NetUtil.decPartsValue]
    rw [show NetUtil.digitsToNat "2048".toList = 2048 from by decide,
      show NetUtil.digitsToNat ([] : List Char) = 0 from rfl]
    norm_num]
  rw [NetUtil.downloadClamp_int]
  show (NetUtil.writeLoop ((NetUtil.clampInt 2048 : ℕ) : ℚ) 31).length = 2048
  rw [NetUtil.writeLoop_length]
  unfold NetUtil.clampInt
  rw [min_eq_left (by norm_num), max_eq_right (by norm_num)]
  rfl

/-- Claim C7 (amended): the perturbation rule guarantees byte-variation
within one response, not across requests — in any single stream of an
integral clamped size, consecutive full 64 KiB chunks are never
byte-identical (their first bytes are consecutive modulo 256), while
two requests for the same size produce identical streams (see the
counterexample). -/
theorem claim_C7_chunk_perturbation (k : Int) (i : Nat)
    (h : (i + 2) * 65536 ≤ NetUtil.clampInt k) :
    ((NetUtil.downloadBody (NetUtil.downloadClamp (.num (k : ℚ)))).drop
        (i * 65536)).take 65536 ≠
      ((NetUtil.downloadBody (NetUtil.downloadClamp (.num (k : ℚ)))).drop
        ((i + 1) * 65536)).take 65536 := by
  rw [NetUtil.downloadClamp_int]
  exact NetUtil.writeLoop_consecutive_chunks_differ
    (NetUtil.clampInt k) i 31 h

/-- Witness for C7's amended chunk-variation rule at the maximum size
(50 MiB) and the first chunk pair. -/
theorem claim_C7_witness :
    ((NetUtil.downloadBody (NetUtil.downloadClamp
        (.num ((52428800 : Int) : ℚ)))).drop (0 * 65536)).take 65536 ≠
      ((NetUtil.downloadBody (NetUtil.downloadClamp
        (.num ((52428800 : Int) : ℚ)))).drop ((0 + 1) * 65536)).take 65536 :=
  claim_C7_chunk_perturbation 52428800 0 (by norm_num [NetUtil.clampInt])

/-- Claim C8: a request whose host fails validation gets HTTP 400 and
spawns no process; one with a valid host spawns the command and reports
`ok = true` exactly when the exit code is 0 and no timeout occurred —
for both the ping and the traceroute handler. -/
theorem claim_C8_handlers_validation_and_ok :
    (∀ (hostQ : NetUtil.JSVal) (r : NetUtil.CommandResult),
      NetUtil.validateHost hostQ = none →
        NetUtil.pingHandler hostQ r = (false, .badRequest) ∧
        NetUtil.tracerouteHandler hostQ r = (false, .badRequest)) ∧
    (∀ (hostQ : NetUtil.JSVal) (h : List Char) (r : NetUtil.CommandResult),
      NetUtil.validateHost hostQ = some h →
        (NetUtil.pingHandler hostQ r).1 = true ∧
        (NetUtil.tracerouteHandler hostQ r).1 = true ∧
        (NetUtil.pingRespOk (NetUtil.pingHandler hostQ r).2 = some true ↔
          (r.code = some 0 ∧ r.timedOut = false)) ∧
        (NetUtil.traceRespOk (NetUtil.tracerouteHandler hostQ r).2 =
            some true ↔ (r.code = some 0 ∧ r.timedOut = false))) := by
  constructor
  · intro hostQ r hv
    constructor
    · unfold NetUtil.pingHandler
      rw [hv]
    · unfold NetUtil.tracerouteHandler
      rw [hv]
  · intro hostQ h r hv
    refine ⟨?_, ?_, ?_, ?_⟩
    · unfold NetUtil.pingHandler
      rw [hv]
    · unfold NetUtil.tracerouteHandler
      rw [hv]
    · unfold NetUtil.pingHandler
      rw [hv]
      show some (!r.timedOut && decide (r.code = some 0)) = some true ↔ _
      simp only [Option.some.injEq, Bool.and_eq_true, Bool.not_eq_true',
        decide_eq_true_eq]
      constructor
      · rintro ⟨ht, hc⟩; exact ⟨hc, ht⟩
      · rintro ⟨hc, ht⟩; exact ⟨ht, hc⟩
    · unfold NetUtil.tracerouteHandler
      rw [hv]
      show some (!r.timedOut && decide (r.code = some 0)) = some true ↔ _
      simp only [Option.some.injEq, Bool.and_eq_true, Bool.not_eq_true',
        decide_eq_true_eq]
      constructor
      · rintro ⟨ht, hc⟩; exact ⟨hc, ht⟩
      · rintro ⟨hc, ht⟩; exact ⟨ht, hc⟩

/-- Witness for C8: a non-string host gives 400 with no spawn in both
handlers; the valid host `a` spawns the ping command. -/
theorem claim_C8_witness :
    NetUtil.pingHandler .nonString ⟨some 0, [], [], false⟩ =
      (false, .badRequest) ∧
    NetUtil.tracerouteHandler .nonString ⟨some 0, [], [], false⟩ =
      (false, .badRequest) ∧
    (NetUtil.pingHandler (.str "a".toList) ⟨some 0, [], [], false⟩).1 =
      true :=
  ⟨(claim_C8_handlers_validation_and_ok.1 .nonString
      ⟨some 0, [], [], false⟩ rfl).1,
   (claim_C8_handlers_validation_and_ok.1 .nonString
      ⟨some 0, [], [], false⟩ rfl).2,
   (claim_C8_handlers_validation_and_ok.2 (.str "a".toList) "a".toList
      ⟨some 0, [], [], false⟩ (by decide)).1⟩

/-- Claim C10: an absent body or a body the raw parser did not turn
into a byte buffer is counted as 0 bytes and answered HTTP 200 with
`receivedBytes: 0`; the 413 branch fires exactly when the measured
length strictly exceeds 200 MiB. -/
theorem claim_C10_upload_handler :
    NetUtil.uploadHandler .absent = .okReceived 0 ∧
    NetUtil.uploadHandler .emptyObject = .okReceived 0 ∧
    ∀ b : NetUtil.UploadBody,
      (NetUtil.uploadHandler b = .payloadTooLarge ↔
        209715200 < NetUtil.uploadBytes b) := by
  refine ⟨rfl, rfl, ?_⟩
  intro b
  unfold NetUtil.uploadHandler
  by_cases hb : 209715200 < NetUtil.uploadBytes b
  · rw [if_pos hb]
    simp [hb]
  · rw [if_neg hb]
    simp [hb]
